import Mathlib

set_option allowUnsafeReducibility true
attribute [semireducible] Rat.add Rat.mul Rat.sub Rat.neg Rat.div Rat.inv

/-!
Verification development for the bulletproof-safety core of the ASTRAL_TURF
repository (`src/utils/bulletproofSafety.ts` and the performance-optimization
module containing `IntelligentCache` and `SafeVirtualScrolling`).

The TypeScript code is shallowly embedded: JavaScript numbers are idealized as
rationals extended with `NaN`, `+Infinity` and `-Infinity` (the claims under
study concern validity-flag logic, fallback substitution and control flow, not
IEEE-754 rounding), JavaScript values flowing through `SafeArray` are a small
inductive universe, the `Map`-backed cache is an insertion-ordered association
list (matching JS `Map` iteration order), and the unbounded `while` loops of
`IntelligentCache.ensureSpace` are given explicit fuel so that divergence is
observable as `none` for every fuel.
-/

/-- Idealized JavaScript number: a rational, or one of the special values
`NaN`, `Infinity`, `-Infinity`. -/
inductive JSNum where
  | fin : ℚ → JSNum
  | nan : JSNum
  | inf : JSNum
  | ninf : JSNum
deriving DecidableEq, Repr

namespace JSNum

/-- `isNaN(x)` on an already-coerced number. -/
def isNaN : JSNum → Bool
  | nan => true
  | _ => false

/-- `isFinite(x)` on an already-coerced number. -/
def isFinite : JSNum → Bool
  | fin _ => true
  | _ => false

/-- `Number.isInteger(x)`. -/
def isInteger : JSNum → Bool
  | fin q => q.den = 1
  | _ => false

/-- JavaScript `<` on numbers: any comparison involving `NaN` is false. -/
def lt : JSNum → JSNum → Bool
  | nan, _ => false
  | _, nan => false
  | ninf, ninf => false
  | ninf, _ => true
  | fin _, ninf => false
  | fin a, fin b => a < b
  | fin _, inf => true
  | inf, _ => false

/-- JavaScript `>` on numbers. -/
def gt (a b : JSNum) : Bool := lt b a

/-- JavaScript `<=` on numbers: false when `NaN` is involved. -/
def le : JSNum → JSNum → Bool
  | nan, _ => false
  | _, nan => false
  | a, b => !(lt b a)

/-- JavaScript `+` on numbers. -/
def add : JSNum → JSNum → JSNum
  | nan, _ => nan
  | _, nan => nan
  | inf, ninf => nan
  | ninf, inf => nan
  | inf, _ => inf
  | _, inf => inf
  | ninf, _ => ninf
  | _, ninf => ninf
  | fin a, fin b => fin (a + b)

/-- JavaScript unary minus. -/
def neg : JSNum → JSNum
  | fin q => fin (-q)
  | nan => nan
  | inf => ninf
  | ninf => inf

/-- JavaScript binary `-`. -/
def sub (a b : JSNum) : JSNum := add a (neg b)

/-- JavaScript `/` (idealized; the zero-divisor branches follow the IEEE
sign conventions `1/0 = Infinity`, `-1/0 = -Infinity`, `0/0 = NaN`). -/
def div : JSNum → JSNum → JSNum
  | nan, _ => nan
  | _, nan => nan
  | inf, inf => nan
  | inf, ninf => nan
  | ninf, inf => nan
  | ninf, ninf => nan
  | inf, fin b => if 0 ≤ b then inf else ninf
  | ninf, fin b => if 0 ≤ b then ninf else inf
  | fin _, inf => fin 0
  | fin _, ninf => fin 0
  | fin a, fin b =>
      if b = 0 then (if a = 0 then nan else if 0 < a then inf else ninf)
      else fin (a / b)

/-- JavaScript `Math.max` of two numbers (`NaN` is absorbing). -/
def max (a b : JSNum) : JSNum :=
  if a.isNaN || b.isNaN then nan else if lt a b then b else a

/-- JavaScript `Math.min` of two numbers (`NaN` is absorbing). -/
def min (a b : JSNum) : JSNum :=
  if a.isNaN || b.isNaN then nan else if lt b a then b else a

/-- Numeric truthiness: `0` and `NaN` are falsy. -/
def truthy : JSNum → Bool
  | fin q => q ≠ 0
  | nan => false
  | _ => true

/-- Extract the rational of a finite number (callers below only apply this to
values that are provably finite; the default `0` branch is unreachable there). -/
def finQ : JSNum → ℚ
  | fin q => q
  | _ => 0

end JSNum

/-- A JavaScript value as seen by `SafeArray` and the data validators:
`null`, `undefined`, a number, a string, a boolean, or an opaque object
reference. -/
inductive JSVal where
  | null : JSVal
  | undef : JSVal
  | num : JSNum → JSVal
  | str : String → JSVal
  | bool : Bool → JSVal
  | obj : ℕ → JSVal
deriving DecidableEq, Repr

namespace JSVal

/-- JavaScript truthiness of a value. -/
def truthy : JSVal → Bool
  | null => false
  | undef => false
  | num n => n.truthy
  | str s => s ≠ ""
  | bool b => b
  | obj _ => true

end JSVal

/-- `SafeNumberImpl`: the four readonly fields computed by the constructor. -/
structure SafeNum where
  value : JSNum
  isValid : Bool
  isFinite : Bool
  isInteger : Bool
deriving DecidableEq, Repr

/-- `new SafeNumberImpl(input, fallback)` from `bulletproofSafety.ts`.
`input` here is the number obtained by the constructor's `Number(input)`
coercion (every JavaScript value coerces to some number, and the constructor
depends on the input only through that number). -/
def mkSafeNumber (input : JSNum) (fallback : JSNum := JSNum.fin 0) : SafeNum :=
  let valid := !input.isNaN && input.isFinite
  { value := if valid then input else fallback
    isValid := valid
    isFinite := input.isFinite
    isInteger := input.isInteger }

namespace SafeNum

/-- `SafeNumberImpl.divide`: a zero divisor (after extracting the numeric
value) short-circuits to `new SafeNumberImpl(0)`. -/
def divide (s : SafeNum) (other : JSNum) : SafeNum :=
  if other = JSNum.fin 0 then mkSafeNumber (JSNum.fin 0)
  else mkSafeNumber (JSNum.div s.value other)

/-- `SafeNumberImpl.clamp(min, max)`:
`new SafeNumberImpl(Math.max(min, Math.min(max, this.value)))`. -/
def clamp (s : SafeNum) (lo hi : JSNum) : SafeNum :=
  mkSafeNumber (JSNum.max lo (JSNum.min hi s.value))

end SafeNum

/-- The default element filter of the `SafeArrayImpl` constructor:
`item !== null && item !== undefined && !Number.isNaN(item)`
(`Number.isNaN` is true only for the actual number `NaN`, without coercion). -/
def defaultKeep (v : JSVal) : Bool :=
  v ≠ JSVal.null && v ≠ JSVal.undef && v ≠ JSVal.num JSNum.nan

/-- `new SafeArrayImpl(input)` without a validator, on an array input:
filters through `defaultKeep`. (The non-array branch of the constructor
produces the empty array and is not exercised by the claims, which quantify
over arrays.) -/
def mkSafeArrayDefault (input : List JSVal) : List JSVal :=
  input.filter defaultKeep

/-- `SafeArrayImpl.map(fn)`. A callback is modelled as
`f : element → index → Option result`, where `none` is a thrown exception;
the inner `catch` turns a throw into `null`, and the resulting array is
re-wrapped through the default-filtering constructor. -/
def safeArrayMap (f : JSVal → ℕ → Option JSVal) (data : List JSVal) : List JSVal :=
  mkSafeArrayDefault (data.enum.map (fun p => (f p.2 p.1).getD JSVal.null))

/-- `SafeArrayImpl.at(index)`: validates the index through `SafeNumberImpl`,
bounds-checks it, then returns `this.data[idx] || null`. -/
def safeArrayAt (data : List JSVal) (index : JSNum) : JSVal :=
  let si := mkSafeNumber index
  if si.isValid && si.isInteger then
    match si.value with
    | JSNum.fin q =>
        if q < 0 || (data.length : ℚ) ≤ q then JSVal.null
        else
          let v := data.getD q.num.toNat JSVal.undef
          if v.truthy then v else JSVal.null
    | _ => JSVal.null
  else JSVal.null

/-- `ChartSafety.generateSafeTicks(min, max, tickCount)`: coerces the bounds
through `safeNumber` (yielding finite values), clamps the count to `[2, 20]`,
returns `[safeMin]` when `safeMax <= safeMin`, and otherwise pushes
`safeMin + i * step` for every natural `i < safeTickCount` (the JS `for` loop
runs `⌈count⌉` times when the clamped count is positive). -/
def generateSafeTicks (lo hi tickCount : JSNum) : List ℚ :=
  let safeMin := (mkSafeNumber lo).value.finQ
  let safeMax := (mkSafeNumber hi).value.finQ
  let safeTickCount := ((mkSafeNumber tickCount (JSNum.fin 5)).clamp
      (JSNum.fin 2) (JSNum.fin 20)).value.finQ
  if safeMax ≤ safeMin then [safeMin]
  else
    let step := (safeMax - safeMin) / (safeTickCount - 1)
    (List.range (Int.ceil safeTickCount).toNat).map
      (fun (i : ℕ) => safeMin + (i : ℚ) * step)

/-- `CacheEntry<T>` of the `IntelligentCache`. The `data` payload is not
inspected by any cache operation, so it is omitted; `size` is the result of
the host-environment `estimateSize` serialization and enters `set` as a
parameter. -/
structure CacheEntry where
  timestamp : ℤ
  accessCount : ℕ
  size : ℚ
  dependencies : List String
deriving DecidableEq, Repr

/-- The mutable state of an `IntelligentCache`. The JS `Map` is an
insertion-ordered association list (iteration follows insertion order, and
`Map.set` on an existing key keeps its position). -/
structure CacheState where
  cache : List (String × CacheEntry)
  maxSize : ℚ
  maxMemory : ℚ
  currentMemory : ℚ
deriving DecidableEq, Repr

/-- First binding of a key in an insertion-ordered map. -/
def mapLookup (key : String) : List (String × CacheEntry) → Option CacheEntry
  | [] => none
  | kv :: rest => if kv.1 = key then some kv.2 else mapLookup key rest

/-- `Map.set`: replace in place when the key is present, append otherwise. -/
def mapSet (key : String) (v : CacheEntry) :
    List (String × CacheEntry) → List (String × CacheEntry)
  | [] => [(key, v)]
  | kv :: rest => if kv.1 = key then (key, v) :: rest else kv :: mapSet key v rest

/-- `Map.delete`. -/
def mapDelete (key : String) (l : List (String × CacheEntry)) :
    List (String × CacheEntry) :=
  l.filter (fun kv => kv.1 ≠ key)

/-- Sum of the stored entries' estimated sizes (the quantity the
`currentMemory` counter is meant to track). -/
def sumSizes (l : List (String × CacheEntry)) : ℚ :=
  (l.map (fun kv => kv.2.size)).sum

namespace IntelligentCache

/-- The `IntelligentCache` constructor: `maxSize` clamped to `[100, 10000]`,
`maxMemoryMB` clamped to `[10, 1000]` and scaled to bytes. -/
def new (maxSize maxMemoryMB : JSNum) : CacheState :=
  { cache := []
    maxSize := ((mkSafeNumber maxSize (JSNum.fin 1000)).clamp
        (JSNum.fin 100) (JSNum.fin 10000)).value.finQ
    maxMemory := ((mkSafeNumber maxMemoryMB (JSNum.fin 100)).clamp
        (JSNum.fin 10) (JSNum.fin 1000)).value.finQ * 1024 * 1024
    currentMemory := 0 }

/-- `evictLeastUsed`: scan for the entry minimizing
`(now - timestamp) / max(accessCount, 1)` (first strict minimum wins, the
initial best score being `Infinity`), then delete it — but only when its key
is truthy, mirroring `if (leastUsedKey)`. -/
def evictLeastUsed (now : ℤ) (s : CacheState) : CacheState :=
  let best := s.cache.foldl
    (fun acc kv =>
      let score : ℚ := ((now - kv.2.timestamp : ℤ) : ℚ) / (Max.max kv.2.accessCount 1 : ℕ)
      match acc with
      | none => some (kv.1, kv.2.size, score)
      | some b => if score < b.2.2 then some (kv.1, kv.2.size, score) else acc)
    none
  match best with
  | some b =>
      if b.1 ≠ "" then
        { s with cache := mapDelete b.1 s.cache
                 currentMemory := s.currentMemory - b.2.1 }
      else s
  | none => s

/-- `evictLargest`: scan for the first entry whose size strictly exceeds all
earlier ones (starting from `largestSize = 0`, so zero-sized entries are never
selected), then delete it when its key is truthy. -/
def evictLargest (s : CacheState) : CacheState :=
  let best := s.cache.foldl
    (fun acc kv =>
      match acc with
      | none => if kv.2.size > 0 then some (kv.1, kv.2.size) else none
      | some b => if kv.2.size > b.2 then some (kv.1, kv.2.size) else acc)
    none
  match best with
  | some b =>
      if b.1 ≠ "" then
        { s with cache := mapDelete b.1 s.cache
                 currentMemory := s.currentMemory - b.2 }
      else s
  | none => s

/-- The count-pressure loop of `ensureSpace`:
`while (this.cache.size >= this.maxSize) this.evictLeastUsed()`, with explicit
fuel; `none` means the loop guard still held after `fuel` iterations. -/
def ensureSpaceCount (now : ℤ) : ℕ → CacheState → Option CacheState
  | 0, s => if s.maxSize ≤ (s.cache.length : ℚ) then none else some s
  | fuel + 1, s =>
      if s.maxSize ≤ (s.cache.length : ℚ) then
        ensureSpaceCount now fuel (evictLeastUsed now s)
      else some s

/-- The byte-pressure loop of `ensureSpace`:
`while (this.currentMemory + requiredSize > this.maxMemory) this.evictLargest()`. -/
def ensureSpaceMem (requiredSize : ℚ) : ℕ → CacheState → Option CacheState
  | 0, s => if s.maxMemory < s.currentMemory + requiredSize then none else some s
  | fuel + 1, s =>
      if s.maxMemory < s.currentMemory + requiredSize then
        ensureSpaceMem requiredSize fuel (evictLargest s)
      else some s

/-- `ensureSpace(requiredSize)`: the count loop followed by the byte loop. -/
def ensureSpace (fuel : ℕ) (now : ℤ) (requiredSize : ℚ) (s : CacheState) :
    Option CacheState :=
  (ensureSpaceCount now fuel s).bind (ensureSpaceMem requiredSize fuel)

/-- `IntelligentCache.set(key, data, dependencies)`. `size` is the result of
`estimateSize(data)` and `now` the value of `Date.now()`. When the key is
already present its size is credited back — but the stale entry stays in the
map until the final `cache.set`. `none` means `ensureSpace` diverged. -/
def set (fuel : ℕ) (now : ℤ) (key : String) (size : ℚ) (deps : List String)
    (s : CacheState) : Option CacheState :=
  let entry : CacheEntry :=
    { timestamp := now, accessCount := 1, size := size, dependencies := deps }
  let s1 :=
    match mapLookup key s.cache with
    | some existing => { s with currentMemory := s.currentMemory - existing.size }
    | none => s
  (ensureSpace fuel now size s1).map (fun s2 =>
    { s2 with cache := mapSet key entry s2.cache
              currentMemory := s2.currentMemory + size })

/-- `IntelligentCache.get(key)`: on a hit, bump `accessCount` and refresh the
timestamp in place. -/
def get (now : ℤ) (key : String) (s : CacheState) : Option CacheEntry × CacheState :=
  match mapLookup key s.cache with
  | none => (none, s)
  | some e =>
      let e2 := { e with accessCount := e.accessCount + 1, timestamp := now }
      (some e2, { s with cache := mapSet key e2 s.cache })

/-- `IntelligentCache.invalidateByDependency(dependency)`: remove every entry
whose `dependencies` contains the tag, crediting back each size; returns the
number removed. -/
def invalidateByDependency (dep : String) (s : CacheState) : ℕ × CacheState :=
  let removed := s.cache.filter (fun kv => dep ∈ kv.2.dependencies)
  let kept := s.cache.filter (fun kv => dep ∉ kv.2.dependencies)
  (removed.length,
   { s with cache := kept, currentMemory := s.currentMemory - sumSizes removed })

/-- `IntelligentCache.clear()`. -/
def clear (s : CacheState) : CacheState :=
  { s with cache := [], currentMemory := 0 }

/-- The record returned by `IntelligentCache.getStats()`. -/
structure Stats where
  entries : ℕ
  memoryUsage : ℚ
  memoryUsagePercent : ℚ
  hitRate : ℚ
deriving DecidableEq, Repr

/-- `IntelligentCache.getStats()`: the hit rate the code actually reports is
`cache.size / totalAccess * 100` (0 when there have been no accesses). -/
def getStats (s : CacheState) : Stats :=
  let totalAccess : ℕ := s.cache.foldl (fun sum kv => sum + kv.2.accessCount) 0
  { entries := s.cache.length
    memoryUsage := s.currentMemory
    memoryUsagePercent := s.currentMemory / s.maxMemory * 100
    hitRate := if 0 < totalAccess then ((s.cache.length : ℚ) / totalAccess) * 100 else 0 }

/-- Modelled from the spec: the hit-rate formula the specification states for
`getStats`, namely `entries / (entries + total accessCount)` as a percentage.
Kept separate from `getStats` (which embeds the source) so the two can be
compared. -/
def specHitRate (s : CacheState) : ℚ :=
  let totalAccess : ℕ := s.cache.foldl (fun sum kv => sum + kv.2.accessCount) 0
  ((s.cache.length : ℚ) / ((s.cache.length : ℚ) + totalAccess)) * 100

end IntelligentCache

/-- A raw (unvalidated) `VirtualScrollItem` as it may arrive at runtime:
the three declared fields, each an arbitrary JavaScript value. A `null` or
`undefined` slot in the incoming array is `Option.none`. -/
structure RawItem where
  id : JSVal
  height : JSVal
  data : JSVal
deriving DecidableEq, Repr

/-- The validator passed to `safeArray` by `calculateVisibleItems`:
`item && typeof item.id === 'string' && typeof item.height === 'number'
&& !isNaN(item.height) && item.height > 0`. -/
def validScrollItem (o : Option RawItem) : Bool :=
  match o with
  | none => false
  | some it =>
      (match it.id with | JSVal.str _ => true | _ => false) &&
      (match it.height with
       | JSVal.num h => !h.isNaN && JSNum.gt h (JSNum.fin 0)
       | _ => false)

/-- The numeric `height` field of a validator-approved item (the validator
guarantees it is a number; the `nan` branch is unreachable on such items). -/
def rawHeightNum (it : RawItem) : JSNum :=
  match it.height with
  | JSVal.num h => h
  | _ => JSNum.nan

/-- `VirtualScrollState` (`state` argument of `calculateVisibleItems`). -/
structure ScrollState where
  scrollTop : JSNum
  containerHeight : JSNum
  itemHeight : JSNum
  overscan : JSNum
deriving DecidableEq, Repr

/-- The result record of `calculateVisibleItems`. `startIndex`/`endIndex` are
rationals because a fractional `overscan` makes `Math.max(0, i - overscan)`
fractional; the heights are JavaScript numbers. -/
structure VisibleRange where
  startIndex : ℚ
  endIndex : ℚ
  totalHeight : JSNum
  offsetY : JSNum
deriving DecidableEq, Repr

/-- The first `for` loop of `calculateVisibleItems`: walk the effective item
heights accumulating `currentOffset`; on the first item with
`currentOffset + itemHeight > scrollTop`, return `Math.max(0, i - overscan)`;
if the loop finishes without breaking, `startIndex` keeps its initial `0`. -/
def loopStart (scrollTop : JSNum) (overscan : ℚ) :
    List JSNum → ℕ → JSNum → ℚ
  | [], _, _ => 0
  | h :: rest, i, off =>
      if JSNum.gt (JSNum.add off h) scrollTop then Max.max 0 ((i : ℚ) - overscan)
      else loopStart scrollTop overscan rest (i + 1) (JSNum.add off h)

/-- The third `for` loop: starting from `startIndex`, accumulate
`visibleHeight`; on the first item pushing it past `containerHeight`, return
`Math.min(length - 1, i + overscan)`; without a break, `endIndex` keeps its
initial `0`. -/
def loopEnd (containerHeight : JSNum) (overscan : ℚ) (len : ℕ) :
    List JSNum → ℕ → JSNum → ℚ
  | [], _, _ => 0
  | h :: rest, i, vis =>
      let vis2 := JSNum.add vis h
      if JSNum.gt vis2 containerHeight then
        Min.min ((len - 1 : ℕ) : ℚ) ((i : ℚ) + overscan)
      else loopEnd containerHeight overscan len rest (i + 1) vis2

/-- `SafeVirtualScrolling.calculateVisibleItems(items, state)`.

The items are first filtered through `validScrollItem`; surviving items are
truthy objects, so the `if (!item) continue` guards never fire and
`safeItems.at(i)` returns the item for every natural `i < length`. Each
retained item's effective height is `safeNumber(item.height, state.itemHeight
|| 50).value` (the fallback applies only to a non-finite, i.e. infinite,
height). The second loop (`for i = 0; i < startIndex; i++`) sums the
effective heights of the naturals below `startIndex` (which is always `<
length`). In the third loop `i` starts at `startIndex` itself: when
`startIndex` is fractional every `at(i)` call returns `null` and the loop
skips all items, leaving `endIndex = 0`. The surrounding
`SafeMath.calculate` wrapper passes the record through unchanged (the body
neither throws nor returns null in this model). -/
def calculateVisibleItems (items : List (Option RawItem)) (st : ScrollState) :
    VisibleRange :=
  let valid : List RawItem :=
    (items.filter validScrollItem).filterMap id
  if valid.isEmpty then
    { startIndex := 0, endIndex := 0, totalHeight := JSNum.fin 0, offsetY := JSNum.fin 0 }
  else
    let scrollTop : JSNum :=
      ((mkSafeNumber st.scrollTop (JSNum.fin 0)).clamp (JSNum.fin 0) JSNum.inf).value
    let containerHeight : JSNum :=
      ((mkSafeNumber st.containerHeight (JSNum.fin 400)).clamp
        (JSNum.fin 100) (JSNum.fin 2000)).value
    let overscan : ℚ :=
      ((mkSafeNumber st.overscan (JSNum.fin 5)).clamp
        (JSNum.fin 0) (JSNum.fin 20)).value.finQ
    let defHeight : JSNum :=
      if st.itemHeight.truthy then st.itemHeight else JSNum.fin 50
    let heights : List JSNum :=
      valid.map (fun it => (mkSafeNumber (rawHeightNum it) defHeight).value)
    let len := valid.length
    let startIndex : ℚ := loopStart scrollTop overscan heights 0 (JSNum.fin 0)
    let offsetY : JSNum :=
      ((List.range len).filter (fun (i : ℕ) => ((i : ℚ) < startIndex : Prop))).foldl
        (fun acc i => JSNum.add acc (heights.getD i (JSNum.fin 0))) (JSNum.fin 0)
    let endIndex : ℚ :=
      if startIndex.den = 1 then
        loopEnd containerHeight overscan len
          (heights.drop startIndex.num.toNat) startIndex.num.toNat (JSNum.fin 0)
      else 0
    let totalHeight : JSNum := heights.foldl JSNum.add (JSNum.fin 0)
    { startIndex := startIndex
      endIndex := Max.max endIndex startIndex
      totalHeight := totalHeight
      offsetY := offsetY }

/-- Helper: filtering a mapped list is the `filterMap` that keeps exactly the
images satisfying the predicate. -/
theorem filter_map_eq_filterMap {α β : Type} (p : β → Bool) (g : α → β) :
    ∀ l : List α, (l.map g).filter p =
      l.filterMap (fun a => if p (g a) then some (g a) else none) := by
  intro l
  induction l with
  | nil => rfl
  | cons a l ih =>
      simp only [List.map_cons, List.filter_cons, List.filterMap_cons]
      cases hp : p (g a) <;> simp [hp, ih]

/-- C8: for any number `n`, `safeNumber(n).divide(0).value` is `0`; the
zero-divisor branch never reaches the division. -/
theorem safeNumber_divide_zero (n : JSNum) :
    ((mkSafeNumber n).divide (JSNum.fin 0)).value = JSNum.fin 0 := rfl

/-- C3 counterexample: with the non-finite caller-supplied fallback
`Infinity` and the non-finite input `NaN`, the constructed value is
`Infinity`, so `value` is not always finite as the claim states. -/
theorem safeNumber_finite_counterexample :
    (mkSafeNumber JSNum.nan JSNum.inf).value = JSNum.inf ∧
    (mkSafeNumber JSNum.nan JSNum.inf).value.isFinite = false := by decide

/-- C3 (amended): provided the caller-supplied fallback is finite (as the
default `0` is), the constructed `value` is always finite; a finite input is
stored with `isValid` true, and a non-finite input is replaced by the
fallback with `isValid` false. -/
theorem safeNumber_finite (input fallback : JSNum)
    (hfb : fallback.isFinite = true) :
    (mkSafeNumber input fallback).value.isFinite = true ∧
    (input.isFinite = true →
      (mkSafeNumber input fallback).value = input ∧
      (mkSafeNumber input fallback).isValid = true) ∧
    (input.isFinite = false →
      (mkSafeNumber input fallback).value = fallback ∧
      (mkSafeNumber input fallback).isValid = false) := by
  cases input <;> cases fallback <;>
    simp_all [mkSafeNumber, JSNum.isFinite, JSNum.isNaN]

/-- C3 witness: the amended theorem applied at input `NaN` and the default
fallback `0`. -/
theorem safeNumber_finite_witness :
    (JSNum.fin 0).isFinite = true ∧
    (mkSafeNumber JSNum.nan (JSNum.fin 0)).value.isFinite = true :=
  ⟨by decide, (safeNumber_finite JSNum.nan (JSNum.fin 0) (by decide)).1⟩

/-- C7 counterexample: a callback that never throws but returns `null` on
the element `1` has its slot dropped from the `map` result, so `map` does
not drop exactly the erroring slots. -/
theorem safeArray_map_counterexample :
    safeArrayMap (fun _ _ => some JSVal.null)
      (mkSafeArrayDefault [JSVal.num (JSNum.fin 1)]) = [] ∧
    ([] : List JSVal) ≠ [JSVal.null] := by decide

/-- C7 (amended): `map` keeps, in original order, exactly the transformed
values of the slots whose callback neither throws nor produces a value the
default filter rejects (`null`, `undefined`, or `NaN`); erroring slots and
slots mapped to such values are discarded entirely. -/
theorem safeArray_map_drops (f : JSVal → ℕ → Option JSVal) (data : List JSVal) :
    safeArrayMap f data =
      data.enum.filterMap (fun p =>
        match f p.2 p.1 with
        | none => none
        | some v => if defaultKeep v then some v else none) := by
  unfold safeArrayMap mkSafeArrayDefault
  rw [filter_map_eq_filterMap]
  apply List.filterMap_congr
  intro p _
  cases hf : f p.2 p.1 with
  | none => simp [hf, defaultKeep]
  | some v => simp [hf]

/-- C10: index access on a constructed `SafeArray` with an in-range natural
index returns the stored element when it is truthy and `null` otherwise
(`this.data[idx] || null`), so `at` can return `null` even for an in-range
index. -/
theorem safeArray_at_falsy (input : List JSVal) (i : ℕ)
    (hi : i < (mkSafeArrayDefault input).length) :
    safeArrayAt (mkSafeArrayDefault input) (JSNum.fin i) =
      (if ((mkSafeArrayDefault input).get ⟨i, hi⟩).truthy = true
       then (mkSafeArrayDefault input).get ⟨i, hi⟩ else JSVal.null) := by
  unfold safeArrayAt
  have hvalid : (mkSafeNumber (JSNum.fin (i : ℚ))).isValid = true := by
    simp [mkSafeNumber, JSNum.isNaN, JSNum.isFinite]
  have hint : (mkSafeNumber (JSNum.fin (i : ℚ))).isInteger = true := by
    simp [mkSafeNumber, JSNum.isInteger]
  have hval : (mkSafeNumber (JSNum.fin (i : ℚ))).value = JSNum.fin (i : ℚ) := by
    simp [mkSafeNumber, JSNum.isNaN, JSNum.isFinite]
  have hnotneg : ¬((i : ℚ) < 0) := by
    exact not_lt.mpr (by positivity)
  have hlen : ¬(((mkSafeArrayDefault input).length : ℚ) ≤ (i : ℚ)) := by
    exact_mod_cast Nat.not_le.mpr hi
  have hnum : ((i : ℚ).num.toNat) = i := by
    simp [Rat.num_natCast]
  simp only [hvalid, hint, hval, Bool.and_self, if_true]
  simp only [hnotneg, hlen, decide_False, Bool.or_self, if_false, hnum]
  rw [List.getD_eq_getElem _ _ hi]
  simp [List.get_eq_getElem]

/-- C10 witness: the element `0` is in range but falsy, so `at` returns
`null` for it. -/
theorem safeArray_at_falsy_witness :
    0 < (mkSafeArrayDefault [JSVal.num (JSNum.fin 0)]).length ∧
    safeArrayAt (mkSafeArrayDefault [JSVal.num (JSNum.fin 0)]) (JSNum.fin 0) =
      JSVal.null := by
  refine ⟨by decide, ?_⟩
  have h := safeArray_at_falsy [JSVal.num (JSNum.fin 0)] 0 (by decide)
  simpa using h

/-- Helper: coercing a finite number through `safeNumber` keeps its value. -/
theorem finQ_coerce (q : ℚ) : (mkSafeNumber (JSNum.fin q)).value.finQ = q := by
  simp [mkSafeNumber, JSNum.isNaN, JSNum.isFinite, JSNum.finQ]

/-- Helper: `clamp` on finite bounds and a finite value computes the usual
rational clamp. -/
theorem clamp_fin_value (q a b : ℚ) (fb : JSNum) :
    ((mkSafeNumber (JSNum.fin q) fb).clamp (JSNum.fin a) (JSNum.fin b)).value =
      JSNum.fin (Max.max a (Min.min b q)) := by
  have h0 : (mkSafeNumber (JSNum.fin q) fb).value = JSNum.fin q := by
    simp [mkSafeNumber, JSNum.isNaN, JSNum.isFinite]
  unfold SafeNum.clamp
  rw [h0]
  have hmin : JSNum.min (JSNum.fin b) (JSNum.fin q) = JSNum.fin (Min.min b q) := by
    rcases lt_or_le q b with h | h
    · simp [JSNum.min, JSNum.isNaN, JSNum.lt, h, min_eq_right h.le]
    · simp [JSNum.min, JSNum.isNaN, JSNum.lt, not_lt.mpr h, min_eq_left h]
  rw [hmin]
  have hmax : JSNum.max (JSNum.fin a) (JSNum.fin (Min.min b q)) =
      JSNum.fin (Max.max a (Min.min b q)) := by
    rcases lt_or_le a (Min.min b q) with h | h
    · simp [JSNum.max, JSNum.isNaN, JSNum.lt, h, max_eq_right h.le]
    · simp [JSNum.max, JSNum.isNaN, JSNum.lt, not_lt.mpr h, max_eq_left h]
  rw [hmax]
  simp [mkSafeNumber, JSNum.isNaN, JSNum.isFinite]

/-- C9: `generateSafeTicks(min, max, count)` returns `[min]` when
`max <= min` after coercion; otherwise it returns exactly
`clamp(count, 2, 20)` evenly spaced values whose first element is `min` and
whose last element is `max`. -/
theorem generateSafeTicks_spec (mi ma : ℚ) (n : ℕ) :
    (ma ≤ mi →
      generateSafeTicks (JSNum.fin mi) (JSNum.fin ma) (JSNum.fin n) = [mi]) ∧
    (mi < ma →
      (generateSafeTicks (JSNum.fin mi) (JSNum.fin ma) (JSNum.fin n)).length =
          Max.max 2 (Min.min 20 n) ∧
      (generateSafeTicks (JSNum.fin mi) (JSNum.fin ma) (JSNum.fin n)).get? 0 =
          some mi ∧
      (generateSafeTicks (JSNum.fin mi) (JSNum.fin ma) (JSNum.fin n)).get?
          (Max.max 2 (Min.min 20 n) - 1) = some ma ∧
      ∀ i : ℕ, i < Max.max 2 (Min.min 20 n) →
        (generateSafeTicks (JSNum.fin mi) (JSNum.fin ma) (JSNum.fin n)).get? i =
          some (mi + i * ((ma - mi) /
            (((Max.max 2 (Min.min 20 n) : ℕ) : ℚ) - 1)))) := by
  have hcnt : ((mkSafeNumber (JSNum.fin (n : ℚ)) (JSNum.fin 5)).clamp
      (JSNum.fin 2) (JSNum.fin 20)).value.finQ =
      ((Max.max 2 (Min.min 20 n) : ℕ) : ℚ) := by
    rw [clamp_fin_value]
    push_cast
    simp [JSNum.finQ]
  have hc2 : 2 ≤ Max.max 2 (Min.min 20 n) := Nat.le_max_left 2 _
  have hceil : (Int.ceil (((Max.max 2 (Min.min 20 n) : ℕ) : ℚ))).toNat =
      Max.max 2 (Min.min 20 n) := by
    rw [Int.ceil_natCast]
    exact Int.toNat_natCast _
  unfold generateSafeTicks
  rw [finQ_coerce, finQ_coerce, hcnt]
  simp only [hceil]
  constructor
  · intro hle
    rw [if_pos hle]
  · intro hlt
    rw [if_neg (not_le.mpr hlt)]
    have hkey : ∀ i : ℕ, i < Max.max 2 (Min.min 20 n) →
        ((List.range (Max.max 2 (Min.min 20 n))).map
          (fun i : ℕ => mi + (i : ℚ) * ((ma - mi) /
            (((Max.max 2 (Min.min 20 n) : ℕ) : ℚ) - 1)))).get? i =
        some (mi + (i : ℚ) * ((ma - mi) /
            (((Max.max 2 (Min.min 20 n) : ℕ) : ℚ) - 1))) := by
      intro i hilt
      rw [List.get?_map, List.get?_range hilt]
      rfl
    refine ⟨by simp, ?_, ?_, hkey⟩
    · rw [hkey 0 (by omega)]
      norm_num
    · rw [hkey (Max.max 2 (Min.min 20 n) - 1) (by omega)]
      have hne : (((Max.max 2 (Min.min 20 n) : ℕ) : ℚ)) - 1 ≠ 0 := by
        have h2q : (2 : ℚ) ≤ ((Max.max 2 (Min.min 20 n) : ℕ) : ℚ) := by
          exact_mod_cast hc2
        linarith
      have hcast : (((Max.max 2 (Min.min 20 n) - 1 : ℕ)) : ℚ) =
          ((Max.max 2 (Min.min 20 n) : ℕ) : ℚ) - 1 := by
        push_cast [Nat.cast_sub (by omega : 1 ≤ Max.max 2 (Min.min 20 n))]
        ring
      have hmul : ((((Max.max 2 (Min.min 20 n) : ℕ) : ℚ)) - 1) *
          ((ma - mi) / ((((Max.max 2 (Min.min 20 n) : ℕ) : ℚ)) - 1)) = ma - mi := by
        rw [mul_comm, div_mul_cancel₀ _ hne]
      rw [hcast, hmul]
      simp only [Option.some.injEq]
      ring

/-- C9 witness: `generateSafeTicks(0, 100, 5)` has exactly 5 values, first
`0`, last `100`. -/
theorem generateSafeTicks_spec_witness :
    (0 : ℚ) < 100 ∧
    (generateSafeTicks (JSNum.fin 0) (JSNum.fin 100) (JSNum.fin 5)).length = 5 ∧
    (generateSafeTicks (JSNum.fin 0) (JSNum.fin 100) (JSNum.fin 5)).get? 0 =
      some 0 ∧
    (generateSafeTicks (JSNum.fin 0) (JSNum.fin 100) (JSNum.fin 5)).get? 4 =
      some 100 := by
  have h := (generateSafeTicks_spec 0 100 5).2 (by norm_num)
  refine ⟨by norm_num, ?_, ?_, ?_⟩
  · simpa using h.1
  · simpa using h.2.1
  · have h4 := h.2.2.1
    simpa using h4

/-- Helper: the `reduce` summing access counts equals the list sum. -/
theorem accessFoldl_eq_sum (l : List (String × CacheEntry)) :
    l.foldl (fun sum kv => sum + kv.2.accessCount) 0 =
      (l.map (fun kv => kv.2.accessCount)).sum := by
  have hgen : ∀ (l : List (String × CacheEntry)) (a : ℕ),
      l.foldl (fun sum kv => sum + kv.2.accessCount) a =
        a + (l.map (fun kv => kv.2.accessCount)).sum := by
    intro l
    induction l with
    | nil => intro a; simp
    | cons kv rest ih =>
        intro a
        simp only [List.foldl_cons, List.map_cons, List.sum_cons, ih]
        omega
  simpa using hgen l 0

/-- C6 counterexample: after a single `set` on a fresh cache the stored
entry has `accessCount = 1`, so the code reports a hit rate of
`1/1 * 100 = 100`, while the specified formula
`entries / (entries + total accessCount)` gives `1/(1+1) * 100 = 50`. -/
theorem getStats_hitRate_counterexample :
    (IntelligentCache.set 10 0 "k" 100 []
        (IntelligentCache.new (JSNum.fin 1000) (JSNum.fin 100))).map
      (fun s => (IntelligentCache.getStats s).hitRate) = some 100 ∧
    (IntelligentCache.set 10 0 "k" 100 []
        (IntelligentCache.new (JSNum.fin 1000) (JSNum.fin 100))).map
      IntelligentCache.specHitRate = some 50 ∧
    (100 : ℚ) ≠ 50 := by decide

/-- C6 (amended): `getStats` reports a hit rate of
`entries / (total accessCount)` (as a percentage) whenever any access has
been recorded, not `entries / (entries + total accessCount)`. -/
theorem getStats_hitRate_formula (s : CacheState)
    (h : (s.cache.map (fun kv => kv.2.accessCount)).sum ≠ 0) :
    (IntelligentCache.getStats s).hitRate =
      ((s.cache.length : ℚ) /
        (((s.cache.map (fun kv => kv.2.accessCount)).sum : ℕ) : ℚ)) * 100 := by
  unfold IntelligentCache.getStats
  simp only [accessFoldl_eq_sum]
  rw [if_pos (Nat.pos_of_ne_zero h)]

/-- C6 witness: the amended formula applied to a one-entry cache state. -/
theorem getStats_hitRate_formula_witness :
    (([("k", CacheEntry.mk 0 1 100 [])].map (fun kv => kv.2.accessCount)).sum ≠ 0) ∧
    (IntelligentCache.getStats
        (CacheState.mk [("k", CacheEntry.mk 0 1 100 [])] 1000 10485760 100)).hitRate
      = 100 := by
  refine ⟨by decide, ?_⟩
  have h := getStats_hitRate_formula
    (CacheState.mk [("k", CacheEntry.mk 0 1 100 [])] 1000 10485760 100) (by decide)
  rw [h]
  norm_num

/-- The cache state produced by the C1 failing sequence (two fresh inserts
followed by a replacement of key `a` under byte pressure). -/
def c1FinalState : CacheState :=
  { cache := [("b", { timestamp := 1, accessCount := 1, size := 3000000,
                      dependencies := [] }),
              ("a", { timestamp := 2, accessCount := 1, size := 8000000,
                      dependencies := [] })]
    maxSize := 1000
    maxMemory := 10485760
    currentMemory := 5000000 }

/-- C1: evaluating the code at the failing input. On a cache with
`maxMemoryMB = 10`, `set("a", 6MB)`, `set("b", 3MB)`, then `set("a", 8MB)`
returns with `currentMemory = 5000000` while the surviving entries' sizes
sum to `11000000`: replacing an existing key credits its size back but
leaves the stale entry in the map, and the byte-pressure eviction then
deducts the same size a second time — so `totalBytes` no longer equals the
sum of the entries' sizes, and the real stored bytes (11000000) exceed the
`maxBytes` budget (10485760). -/
theorem cache_set_replacement_accounting :
    ((IntelligentCache.set 10 0 "a" 6000000 []
        (IntelligentCache.new (JSNum.fin 1000) (JSNum.fin 10))).bind
      (IntelligentCache.set 10 1 "b" 3000000 [])).bind
      (IntelligentCache.set 10 2 "a" 8000000 []) = some c1FinalState ∧
    c1FinalState.currentMemory = 5000000 ∧
    sumSizes c1FinalState.cache = 11000000 ∧
    c1FinalState.currentMemory ≠ sumSizes c1FinalState.cache ∧
    c1FinalState.maxMemory < sumSizes c1FinalState.cache := by decide

/-- Helper: `evictLargest` does nothing on an empty cache. -/
theorem evictLargest_empty (s : CacheState) (hc : s.cache = []) :
    IntelligentCache.evictLargest s = s := by
  unfold IntelligentCache.evictLargest
  rw [hc]
  rfl

/-- Helper: when the cache is empty and the required size alone exceeds the
byte budget, the byte-pressure loop never terminates: it returns `none` for
every fuel. -/
theorem ensureSpaceMem_empty_diverges (req : ℚ) (s : CacheState)
    (hc : s.cache = []) (hm : s.maxMemory < s.currentMemory + req) :
    ∀ fuel : ℕ, IntelligentCache.ensureSpaceMem req fuel s = none := by
  intro fuel
  induction fuel with
  | zero =>
      unfold IntelligentCache.ensureSpaceMem
      rw [if_pos hm]
  | succ f ih =>
      unfold IntelligentCache.ensureSpaceMem
      rw [if_pos hm, evictLargest_empty s hc]
      exact ih

/-- Helper: the count-pressure loop is the identity when there is no count
pressure. -/
theorem ensureSpaceCount_no_pressure (now : ℤ) (s : CacheState)
    (h : ¬ s.maxSize ≤ (s.cache.length : ℚ)) :
    ∀ fuel : ℕ, IntelligentCache.ensureSpaceCount now fuel s = some s := by
  intro fuel
  cases fuel with
  | zero =>
      unfold IntelligentCache.ensureSpaceCount
      rw [if_neg h]
  | succ f =>
      unfold IntelligentCache.ensureSpaceCount
      rw [if_neg h]

/-- C2: `set` does not terminate when the value's estimated size alone
exceeds the byte budget. With the minimum byte budget (`maxMemoryMB = 10`,
i.e. 10485760 bytes) and an entry of estimated size 10485761 on an empty
cache, the `while` loop in `ensureSpace` never makes progress
(`evictLargest` has nothing to evict), so the fuel-indexed `set` returns
`none` for every fuel. -/
theorem cache_set_oversized_diverges (fuel : ℕ) (now : ℤ) :
    IntelligentCache.set fuel now "k" 10485761 []
      (IntelligentCache.new (JSNum.fin 1000) (JSNum.fin 10)) = none := by
  have hnew : IntelligentCache.new (JSNum.fin 1000) (JSNum.fin 10) =
      { cache := [], maxSize := 1000, maxMemory := 10485760,
        currentMemory := 0 } := by decide
  unfold IntelligentCache.set IntelligentCache.ensureSpace
  rw [hnew]
  simp only [mapLookup]
  rw [ensureSpaceCount_no_pressure now _ (by norm_num) fuel]
  rw [Option.some_bind]
  rw [ensureSpaceMem_empty_diverges 10485761 _ rfl (by norm_num) fuel]
  rfl

/-- C4 counterexample: with default item height 50, the list
`[height 10, height -5, height 10]` yields `totalHeight = 20` — the invalid
middle item contributes nothing, whereas the claim would have it contribute
the default height (total 70). -/
theorem scroll_invalid_dropped_counterexample :
    (calculateVisibleItems
      [some ⟨JSVal.str "a", JSVal.num (JSNum.fin 10), JSVal.null⟩,
       some ⟨JSVal.str "b", JSVal.num (JSNum.fin (-5)), JSVal.null⟩,
       some ⟨JSVal.str "c", JSVal.num (JSNum.fin 10), JSVal.null⟩]
      ⟨JSNum.fin 0, JSNum.fin 400, JSNum.fin 50, JSNum.fin 0⟩).totalHeight =
      JSNum.fin 20 ∧
    JSNum.fin (20 : ℚ) ≠ JSNum.fin ((10 : ℚ) + 50 + 10) := by decide

/-- C4 (amended): items lacking a valid positive height are dropped from the
computation entirely — the result on any item list equals the result on the
list with the invalid items removed; the caller-supplied default height only
ever applies to retained items (those with a positive, possibly infinite,
numeric height). -/
theorem scroll_drops_invalid (items : List (Option RawItem)) (st : ScrollState) :
    calculateVisibleItems items st =
      calculateVisibleItems (items.filter validScrollItem) st := by
  have hff : (items.filter validScrollItem).filter validScrollItem =
      items.filter validScrollItem := by
    apply List.filter_eq_self.mpr
    intro a ha
    exact (List.mem_filter.mp ha).2
  simp only [calculateVisibleItems, hff]

/-- C5 counterexample: one item of height 10, scrollTop 100, overscan 0.
The start-index loop never breaks (the scroll offset is past the content),
so `startIndex` keeps its initial value `0`, while `floor(scrollTop / h)` is
`10`. -/
theorem scroll_start_floor_counterexample :
    (calculateVisibleItems
        [some ⟨JSVal.str "a", JSVal.num (JSNum.fin 10), JSVal.null⟩]
        ⟨JSNum.fin 100, JSNum.fin 400, JSNum.fin 50, JSNum.fin 0⟩).startIndex =
      0 ∧
    ((⌊(100 : ℚ) / 10⌋ : ℤ) : ℚ) = 10 ∧ (0 : ℚ) ≠ 10 := by decide

/-- Helper: `filterMap id` over a list of `some` values is the underlying
map. -/
theorem filterMap_id_map_some {α β : Type} (g : α → β) (l : List α) :
    (l.map (fun a => some (g a))).filterMap id = l.map g := by
  induction l with
  | nil => rfl
  | cons a l ih => simp [ih]

/-- Helper: a constant-valued map is a `replicate`. -/
theorem map_fn_const {α β : Type} (b : β) (l : List α) :
    l.map (fun _ => b) = List.replicate l.length b := by
  induction l with
  | nil => rfl
  | cons a l ih => simp [ih, List.replicate_succ]

/-- Helper: on `m` items of equal finite height `h`, starting from index `i`
with the exact accumulated offset `i * h`, the start-index loop (with zero
overscan) returns `⌊s / h⌋` provided the break happens within the remaining
`m` items. -/
theorem loopStart_replicate (h s : ℚ) (hh : 0 < h) :
    ∀ (m i : ℕ), (i : ℚ) * h ≤ s → (⌊s / h⌋ : ℤ) < (i : ℤ) + (m : ℤ) →
      loopStart (JSNum.fin s) 0 (List.replicate m (JSNum.fin h)) i
          (JSNum.fin ((i : ℚ) * h)) = ((⌊s / h⌋ : ℤ) : ℚ) := by
  intro m
  induction m with
  | zero =>
      intro i hle hflt
      exfalso
      have h1 : (i : ℚ) ≤ s / h := (le_div_iff hh).mpr hle
      have h3 : ((i : ℕ) : ℤ) ≤ ⌊s / h⌋ := by
        apply Int.le_floor.mpr
        push_cast
        exact h1
      omega
  | succ m ih =>
      intro i hle hflt
      rw [List.replicate_succ]
      unfold loopStart
      have hadd : JSNum.add (JSNum.fin ((i : ℚ) * h)) (JSNum.fin h) =
          JSNum.fin ((i : ℚ) * h + h) := rfl
      rw [hadd]
      by_cases hbr : s < (i : ℚ) * h + h
      · have hcond : JSNum.gt (JSNum.fin ((i : ℚ) * h + h)) (JSNum.fin s) = true := by
          simp [JSNum.gt, JSNum.lt, hbr]
        rw [if_pos hcond]
        have hfloor : ⌊s / h⌋ = (i : ℤ) := by
          rw [Int.floor_eq_iff]
          constructor
          · push_cast
            exact (le_div_iff hh).mpr hle
          · push_cast
            rw [div_lt_iff hh]
            linarith
        rw [hfloor]
        push_cast
        rw [sub_zero]
        exact max_eq_right (by positivity)
      · have hcond : JSNum.gt (JSNum.fin ((i : ℚ) * h + h)) (JSNum.fin s) = false := by
          simp [JSNum.gt, JSNum.lt, hbr]
        simp only [hcond, Bool.false_eq_true, if_false]
        have hoff : (i : ℚ) * h + h = (((i + 1 : ℕ)) : ℚ) * h := by
          push_cast
          ring
        rw [hoff]
        apply ih (i + 1)
        · push_cast
          have := not_lt.mp hbr
          linarith
        · push_cast
          push_cast at hflt
          omega

/-- Helper: the scroll offset coercion
`safeNumber(scrollTop, 0).clamp(0, Infinity).value` is the identity on a
finite nonnegative scroll offset. -/
theorem clamp_zero_inf (s : ℚ) (hs : 0 ≤ s) :
    ((mkSafeNumber (JSNum.fin s) (JSNum.fin 0)).clamp (JSNum.fin 0)
        JSNum.inf).value = JSNum.fin s := by
  have h0 : (mkSafeNumber (JSNum.fin s) (JSNum.fin 0)).value = JSNum.fin s := by
    simp [mkSafeNumber, JSNum.isNaN, JSNum.isFinite]
  unfold SafeNum.clamp
  rw [h0]
  have hmin : JSNum.min JSNum.inf (JSNum.fin s) = JSNum.fin s := rfl
  rw [hmin]
  have hmax : JSNum.max (JSNum.fin 0) (JSNum.fin s) = JSNum.fin s := by
    rcases lt_or_eq_of_le hs with h | h
    · simp [JSNum.max, JSNum.isNaN, JSNum.lt, h]
    · simp [JSNum.max, JSNum.isNaN, JSNum.lt, ← h]
  rw [hmax]
  simp [mkSafeNumber, JSNum.isNaN, JSNum.isFinite]

/-- C5 (amended): for a non-empty list of items sharing the same finite
positive height `h`, a finite scroll offset `s >= 0`, and zero overscan,
`startIndex = floor(s / h)` — provided `floor(s / h)` is within the item
range (when the offset is at or past the end of the content the loop never
breaks and `startIndex` stays `0`, as the counterexample shows). -/
theorem scroll_start_floor (ids : List (String × JSVal)) (h s : ℚ)
    (chn ihn : JSNum) (hh : 0 < h) (hs : 0 ≤ s) (hne : ids ≠ [])
    (hin : (⌊s / h⌋ : ℤ) < (ids.length : ℤ)) :
    (calculateVisibleItems
        (ids.map (fun p =>
          some (RawItem.mk (JSVal.str p.1) (JSVal.num (JSNum.fin h)) p.2)))
        (ScrollState.mk (JSNum.fin s) chn ihn (JSNum.fin 0))).startIndex =
      ((⌊s / h⌋ : ℤ) : ℚ) := by
  have hfilter : (ids.map (fun p =>
      some (RawItem.mk (JSVal.str p.1) (JSVal.num (JSNum.fin h)) p.2))).filter
        validScrollItem =
      ids.map (fun p =>
        some (RawItem.mk (JSVal.str p.1) (JSVal.num (JSNum.fin h)) p.2)) := by
    apply List.filter_eq_self.mpr
    intro a ha
    obtain ⟨p, hp, rfl⟩ := List.mem_map.mp ha
    simp [validScrollItem, JSNum.isNaN, JSNum.gt, JSNum.lt, hh]
  have hgne : ids.map (fun p =>
      RawItem.mk (JSVal.str p.1) (JSVal.num (JSNum.fin h)) p.2) ≠ [] := by
    simpa [List.map_eq_nil] using hne
  have hempty : ¬ ((ids.map (fun p =>
      RawItem.mk (JSVal.str p.1) (JSVal.num (JSNum.fin h)) p.2)).isEmpty = true) := by
    simpa [List.isEmpty_iff] using hgne
  simp only [calculateVisibleItems, hfilter, filterMap_id_map_some]
  rw [if_neg hempty]
  dsimp only
  rw [clamp_zero_inf s hs]
  have hover : ((mkSafeNumber (JSNum.fin 0) (JSNum.fin 5)).clamp (JSNum.fin 0)
      (JSNum.fin 20)).value.finQ = 0 := by decide
  rw [hover]
  have hheights : (ids.map (fun p =>
      RawItem.mk (JSVal.str p.1) (JSVal.num (JSNum.fin h)) p.2)).map
        (fun it => (mkSafeNumber (rawHeightNum it)
          (if (JSNum.truthy ihn) = true then ihn else JSNum.fin 50)).value) =
      List.replicate ids.length (JSNum.fin h) := by
    rw [List.map_map]
    have hcong : ∀ p : String × JSVal,
        ((fun it => (mkSafeNumber (rawHeightNum it)
            (if (JSNum.truthy ihn) = true then ihn else JSNum.fin 50)).value) ∘
          (fun p => RawItem.mk (JSVal.str p.1) (JSVal.num (JSNum.fin h)) p.2)) p =
          JSNum.fin h := by
      intro p
      simp [Function.comp, rawHeightNum, mkSafeNumber, JSNum.isNaN, JSNum.isFinite]
    calc ids.map _ = ids.map (fun _ => JSNum.fin h) := List.map_congr_left
          (fun p _ => hcong p)
      _ = List.replicate ids.length (JSNum.fin h) := map_fn_const _ ids
  rw [hheights]
  have h0 : JSNum.fin (0 : ℚ) = JSNum.fin (((0 : ℕ) : ℚ) * h) := by
    norm_num
  rw [h0]
  apply loopStart_replicate h s hh ids.length 0
  · simpa using hs
  · push_cast
    omega

/-- C5 witness: two items of height 10 with scrollTop 15 give
`startIndex = floor(15/10) = 1`. -/
theorem scroll_start_floor_witness :
    (0 : ℚ) < 10 ∧
    (calculateVisibleItems
        [some ⟨JSVal.str "a", JSVal.num (JSNum.fin 10), JSVal.null⟩,
         some ⟨JSVal.str "b", JSVal.num (JSNum.fin 10), JSVal.null⟩]
        ⟨JSNum.fin 15, JSNum.fin 400, JSNum.fin 50, JSNum.fin 0⟩).startIndex =
      ((⌊(15 : ℚ) / 10⌋ : ℤ) : ℚ) := by
  refine ⟨by norm_num, ?_⟩
  have h := scroll_start_floor [("a", JSVal.null), ("b", JSVal.null)] 10 15
    (JSNum.fin 400) (JSNum.fin 50) (by norm_num) (by norm_num)
    (by decide) (by decide)
  simpa using h
